/-
Verification of the settlement, append, validation and refresh-cooldown
logic of the two-person expense tracker in src/app.py.

Money is embedded as exact rationals (ℚ): Python floats with the small
decimal constants involved here behave like exact decimal arithmetic for
the properties below, and every numeric claim is settled on exact values.
A spreadsheet row as seen by the settlement loop (after get_data's
dropna/strip cleaning) is modelled with:
  - amount  : Option ℚ — `some a` when `float(row['Amount'])` succeeds,
    `none` when it raises (non-numeric cell);
  - involved : Option String — `some s` for the raw cell text
    (`str(row['Involved'])`), `none` when reading the cell raises
    (missing column, i.e. the KeyError caught by the loop's `except`).
-/
import Mathlib

/-- `USERS = ['Christen', 'Bill']` from app.py. -/
def USERS : List String := ["Christen", "Bill"]

/-- `EXCHANGE_RATE = 0.2075` (JPY to TWD) from app.py. -/
def EXCHANGE_RATE : ℚ := 2075 / 10000

/-- `USERS[0]` in app.py. -/
def userA : String := USERS.getD 0 ""

/-- `USERS[1]` in app.py. -/
def userB : String := USERS.getD 1 ""

/-- One ledger row as the settlement loop sees it. -/
structure Row where
  amount : Option ℚ
  currency : String
  payer : String
  involved : Option String
deriving DecidableEq

/-- Drop leading whitespace characters, as Python `str.strip` does on the left. -/
def dropLeadingSpaces : List Char → List Char
  | [] => []
  | c :: cs => if c.isWhitespace then dropLeadingSpaces cs else c :: cs

/-- Python `str.strip`: whitespace removed from both ends. -/
def stripChars (cs : List Char) : List Char :=
  (dropLeadingSpaces (dropLeadingSpaces cs).reverse).reverse

/-- Python `str.split(",")` on the character list: split at every comma,
keeping empty pieces, never returning an empty list. -/
def splitComma : List Char → List (List Char)
  | [] => [[]]
  | c :: cs =>
    if c = ',' then [] :: splitComma cs
    else
      match splitComma cs with
      | [] => [[c]]
      | h :: t => (c :: h) :: t

/-- `[name.strip() for name in str(row['Involved']).split(",")]` (app.py line 149). -/
def parseInvolved (s : String) : List String :=
  (splitComma s.data).map (fun cs => String.mk (stripChars cs))

/-- One bucket of `user_stats`: `{"paid": …, "fair_share": …}`. -/
structure UserStat where
  paid : ℚ
  fair_share : ℚ
deriving DecidableEq

/-- Accumulator of the TAB 3 loop: `user_stats` (total function on names;
the loop's `in user_stats` guards mean only `USERS` entries are ever
touched or read) together with `total_twd`. -/
structure SettleState where
  stats : String → UserStat
  total : ℚ

/-- Initial accumulator: `user_stats = {u: {"paid": 0.0, "fair_share": 0.0} for u in USERS}`,
`total_twd = 0.0`. -/
def initSettle : SettleState :=
  { stats := fun _ => ⟨0, 0⟩, total := 0 }

/-- `user_stats[p_name]["paid"] += amt_twd`. -/
def updatePaid (st : SettleState) (u : String) (amt : ℚ) : SettleState :=
  { st with stats := fun v =>
      if v = u then ⟨(st.stats u).paid + amt, (st.stats u).fair_share⟩ else st.stats v }

/-- `user_stats[person]["fair_share"] += share`. -/
def updateFair (st : SettleState) (u : String) (amt : ℚ) : SettleState :=
  { st with stats := fun v =>
      if v = u then ⟨(st.stats u).paid, (st.stats u).fair_share + amt⟩ else st.stats v }

/-- Body of `for _, row in df.iterrows():` in TAB 3 (app.py lines 136–155).
The `try/except: continue` is modelled by the two Option matches: a `none`
amount aborts before any accumulation (the `float` call raises first); a
`none` involved cell aborts after `total_twd` and the payer credit have
already been applied (the KeyError is raised at line 149). -/
def processRow (st : SettleState) (row : Row) : SettleState :=
  match row.amount with
  | none => st
  | some amt =>
    let amt_twd := if row.currency = "JPY" then amt * EXCHANGE_RATE else amt
    let st1 : SettleState := { st with total := st.total + amt_twd }
    let st2 := if row.payer ∈ USERS then updatePaid st1 row.payer amt_twd else st1
    match row.involved with
    | none => st2
    | some invStr =>
      let inv_list := parseInvolved invStr
      let share := amt_twd / (inv_list.length : ℚ)
      inv_list.foldl
        (fun s person => if person ∈ USERS then updateFair s person share else s) st2

/-- The whole TAB 3 accumulation over a ledger. -/
def finalState (ledger : List Row) : SettleState :=
  ledger.foldl processRow initSettle

/-- `balance = user_stats[u]["paid"] - user_stats[u]["fair_share"]` (line 160). -/
def balanceOf (ledger : List Row) (u : String) : ℚ :=
  ((finalState ledger).stats u).paid - ((finalState ledger).stats u).fair_share

/-- Sum of the two configured participants' balances. -/
def sumBalances (st : SettleState) : ℚ :=
  (USERS.map (fun u => (st.stats u).paid - (st.stats u).fair_share)).sum

/-- `diff = user_stats[USERS[0]]["paid"] - user_stats[USERS[0]]["fair_share"]` (line 173). -/
def diffOf (ledger : List Row) : ℚ :=
  balanceOf ledger userA

/-- Outcome of the settlement recommendation (lines 175–180):
`B_OWES_A` is the `diff > 0` branch (`USERS[1]` pays `USERS[0]`),
`A_OWES_B` the `else` branch. -/
inductive Direction
  | BALANCED
  | B_OWES_A
  | A_OWES_B
deriving DecidableEq

/-- The `if abs(diff) < 1 / elif diff > 0 / else` decision. -/
def settleDirection (ledger : List Row) : Direction :=
  if |diffOf ledger| < 1 then .BALANCED
  else if diffOf ledger > 0 then .B_OWES_A
  else .A_OWES_B

/-- The transfer amount accompanying the decision: `abs(diff)` when a
transfer is recommended, 0 when balanced (truncation to integer happens
only in the displayed string). -/
def settleAmount (ledger : List Row) : ℚ :=
  if |diffOf ledger| < 1 then 0 else |diffOf ledger|

/-- A full ledger entry as built by the add-expense form (app.py lines 96–103):
`Involved` is stored as the `", ".join(involved)` string. -/
structure Entry where
  date : String
  item : String
  amount : ℚ
  currency : String
  payer : String
  involved : String
deriving DecidableEq

/-- Python `", ".join(names)`. -/
def joinCommaSpace : List String → String
  | [] => ""
  | [x] => x
  | x :: y :: xs => x ++ ", " ++ joinCommaSpace (y :: xs)

/-- State of the remote store plus the process-wide ledger cache
(`st.cache_data` holding at most one `get_data` snapshot). -/
structure AppState where
  remote : List Entry
  cache : Option (List Entry)
deriving DecidableEq

/-- `conn.read(spreadsheet=SHEET_URL, ttl=0)`: a force-fresh read, bypassing
the cache entirely. -/
def readAllFresh (s : AppState) : List Entry :=
  s.remote

/-- `get_data()` under the 30-second TTL cache: serve the snapshot when one
is cached, otherwise fetch from the remote store. -/
def readCached (s : AppState) : List Entry :=
  match s.cache with
  | some snap => snap
  | none => s.remote

/-- The fixed error message of app.py line 90. -/
def validationMsg : String := "⚠️ 請填寫完整內容（項目、金額、分攤人）"

/-- Outcome of a form submission. -/
inductive SubmitOutcome
  | validationError (msg : String)
  | storeFailure
  | success
deriving DecidableEq

/-- The `if submit:` handler of TAB 1 (app.py lines 88–113).
Validation: `if not item or amount <= 0 or not involved:` shows the fixed
error and changes nothing. Otherwise a force-fresh read is taken, the new
row is appended, and the full sequence is written back; only after a
successful write does `st.cache_data.clear()` run. A failing
`conn.update` raises before the cache-clear line, so the state is left
untouched (`writeSucceeds` models whether the remote write goes through). -/
def submitExpense (s : AppState) (date item : String) (amount : ℚ)
    (currency payer : String) (involved : List String) (writeSucceeds : Bool) :
    AppState × SubmitOutcome :=
  if item = "" ∨ amount ≤ 0 ∨ involved = [] then
    (s, .validationError validationMsg)
  else
    let fresh := readAllFresh s
    let newRow : Entry := ⟨date, item, amount, currency, payer, joinCommaSpace involved⟩
    let updated := fresh ++ [newRow]
    if writeSucceeds then
      ({ remote := updated, cache := none }, .success)
    else
      (s, .storeFailure)

/-- The refresh-cooldown state: `st.session_state.last_sync_time` (0.0
initially) and whether the TTL cache still holds a snapshot. -/
structure SyncState where
  lastSyncTime : ℚ
  cacheValid : Bool
deriving DecidableEq

/-- Outcome of pressing the refresh button. -/
inductive RefreshOutcome
  | rejected (waitSeconds : ℤ)
  | accepted
deriving DecidableEq

/-- The `if st.button("🔄 刷新"):` handler (app.py lines 56–68):
reject with `int(30 - time_since_last)` remaining seconds when fewer than
30 seconds passed since the last accepted refresh; otherwise clear the
cache and record `now` as the new last-sync time. `int()` truncates, which
on the positive value `30 - time_since_last` is the floor. -/
def refreshClick (st : SyncState) (now : ℚ) : SyncState × RefreshOutcome :=
  let timeSinceLast := now - st.lastSyncTime
  if timeSinceLast < 30 then
    (st, .rejected ⌊30 - timeSinceLast⌋)
  else
    ({ lastSyncTime := now, cacheValid := false }, .accepted)

/-- A row on which the settlement loop completes with nothing dropped:
its amount parses, its Involved cell is present, its payer is a configured
participant, and every parsed involved name is a configured participant.
Rows with an unparseable amount are also good (they are skipped whole). -/
def rowGoodB (row : Row) : Bool :=
  match row.amount, row.involved with
  | none, _ => true
  | some _, none => false
  | some _, some s =>
    decide (row.payer ∈ USERS) && (parseInvolved s).all (fun n => decide (n ∈ USERS))

lemma splitComma_ne_nil (cs : List Char) : splitComma cs ≠ [] := by
  induction cs with
  | nil => simp [splitComma]
  | cons c cs ih =>
    by_cases hc : c = ','
    · simp [splitComma, hc]
    · cases h : splitComma cs with
      | nil => exact absurd h ih
      | cons a t => simp [splitComma, hc, h]

lemma parseInvolved_length_pos (s : String) : 1 ≤ (parseInvolved s).length := by
  unfold parseInvolved
  rw [List.length_map]
  exact List.length_pos.mpr (splitComma_ne_nil s.data)

lemma sumBalances_set_total (st : SettleState) (x : ℚ) :
    sumBalances { st with total := x } = sumBalances st := rfl

lemma sumBalances_updatePaid (st : SettleState) (u : String) (a : ℚ) (h : u ∈ USERS) :
    sumBalances (updatePaid st u a) = sumBalances st + a := by
  fin_cases h <;> simp [sumBalances, updatePaid, USERS] <;> ring

lemma sumBalances_updateFair (st : SettleState) (u : String) (a : ℚ) (h : u ∈ USERS) :
    sumBalances (updateFair st u a) = sumBalances st - a := by
  fin_cases h <;> simp [sumBalances, updateFair, USERS] <;> ring

lemma sumBalances_fairFold (names : List String) (share : ℚ) (st : SettleState)
    (h : ∀ n ∈ names, n ∈ USERS) :
    sumBalances (names.foldl
      (fun s person => if person ∈ USERS then updateFair s person share else s) st)
      = sumBalances st - share * names.length := by
  induction names generalizing st with
  | nil => simp
  | cons n ns ih =>
    have hn : n ∈ USERS := h n (List.mem_cons_self n ns)
    have hns : ∀ m ∈ ns, m ∈ USERS := fun m hm => h m (List.mem_cons_of_mem n hm)
    rw [List.foldl_cons, if_pos hn, ih _ hns, sumBalances_updateFair st n share hn,
      List.length_cons]
    push_cast
    ring

lemma processRow_none (st : SettleState) (row : Row) (h : row.amount = none) :
    processRow st row = st := by
  rcases row with ⟨amount, currency, payer, involved⟩
  cases h
  rfl

lemma processRow_some_some (st : SettleState) (amt : ℚ) (currency payer s : String) :
    processRow st ⟨some amt, currency, payer, some s⟩ =
      (let amt_twd := if currency = "JPY" then amt * EXCHANGE_RATE else amt
       let st1 : SettleState := { st with total := st.total + amt_twd }
       let st2 := if payer ∈ USERS then updatePaid st1 payer amt_twd else st1
       let inv_list := parseInvolved s
       let share := amt_twd / (inv_list.length : ℚ)
       inv_list.foldl
         (fun s2 person => if person ∈ USERS then updateFair s2 person share else s2) st2) :=
  rfl

lemma sumBalances_processRow (st : SettleState) (row : Row) (h : rowGoodB row = true) :
    sumBalances (processRow st row) = sumBalances st := by
  rcases row with ⟨amount, currency, payer, involved⟩
  cases amount with
  | none => rw [processRow_none st _ rfl]
  | some amt =>
    cases involved with
    | none => exact absurd h (by simp [rowGoodB])
    | some s =>
      simp only [rowGoodB, Bool.and_eq_true, List.all_eq_true] at h
      obtain ⟨hp, hinv⟩ := h
      have hp' : payer ∈ USERS := of_decide_eq_true hp
      have hinv' : ∀ n ∈ parseInvolved s, n ∈ USERS :=
        fun n hn => of_decide_eq_true (hinv n hn)
      have hlen : (0 : ℚ) < ((parseInvolved s).length : ℚ) := by
        exact_mod_cast parseInvolved_length_pos s
      rw [processRow_some_some]
      dsimp only
      rw [if_pos hp', sumBalances_fairFold _ _ _ hinv',
        sumBalances_updatePaid _ _ _ hp', sumBalances_set_total,
        div_mul_cancel₀ _ hlen.ne']
      ring

lemma sumBalances_foldl (L : List Row) (st : SettleState)
    (h : ∀ r ∈ L, rowGoodB r = true) :
    sumBalances (L.foldl processRow st) = sumBalances st := by
  induction L generalizing st with
  | nil => rfl
  | cons r L ih =>
    rw [List.foldl_cons, ih _ (fun x hx => h x (List.mem_cons_of_mem r hx)),
      sumBalances_processRow st r (h r (List.mem_cons_self r L))]

lemma sumBalances_init : sumBalances initSettle = 0 := by
  simp [sumBalances, initSettle, USERS]

/-- C1 (amended): for every ledger all of whose amount-parseable rows have a
present Involved cell, a payer among the two configured participants, and
only configured participants among their parsed Involved names, the sum of
the two participants' balances is exactly zero (hence within the 1e-6
tolerance). The universal claim over all ledgers is refuted by
`C1_counterexample`. -/
theorem C1_balance_conservation (L : List Row) (h : ∀ r ∈ L, rowGoodB r = true) :
    sumBalances (finalState L) = 0 := by
  rw [finalState, sumBalances_foldl L initSettle h, sumBalances_init]

/-- Witness for `C1_balance_conservation` at a concrete one-row ledger. -/
theorem C1_balance_conservation_witness :
    sumBalances (finalState [⟨some 100, "JPY", "Christen", some "Christen, Bill"⟩]) = 0 :=
  C1_balance_conservation _ (by decide)

/-- C1 counterexample: a single parseable row whose payer "X" is not a
configured participant makes the balance sum -10, far outside the 1e-6
tolerance, refuting the claim as stated over all ledgers. -/
theorem C1_counterexample :
    sumBalances (finalState [⟨some 10, "TWD", "X", some "Christen, Bill"⟩]) = -10 ∧
    ¬ |sumBalances (finalState [⟨some 10, "TWD", "X", some "Christen, Bill"⟩])|
        ≤ 1 / 1000000 := by
  have hp : parseInvolved "Christen, Bill" = ["Christen", "Bill"] := by decide
  have hsum : sumBalances (finalState [⟨some 10, "TWD", "X", some "Christen, Bill"⟩])
      = -10 := by
    simp [sumBalances, finalState, processRow, initSettle, updatePaid, updateFair, USERS, hp]
    norm_num
  refine ⟨hsum, ?_⟩
  rw [hsum]
  norm_num

/-- A one-row ledger whose computed `diff` is exactly one LOCAL unit:
2 TWD paid by Christen, split between both participants. -/
def oneUnitLedger : List Row := [⟨some 2, "TWD", "Christen", some "Christen, Bill"⟩]

lemma diff_oneUnitLedger : diffOf oneUnitLedger = 1 := by
  have hp : parseInvolved "Christen, Bill" = ["Christen", "Bill"] := by decide
  simp [diffOf, balanceOf, userA, oneUnitLedger, finalState, processRow, initSettle,
    updatePaid, updateFair, USERS, hp]
  norm_num

/-- C2 (amended): a ledger whose `diff` satisfies `|diff| == 1` exactly is
NOT reported balanced — a transfer is reported — because the decision
threshold is the strict `abs(diff) < 1`; BALANCED holds exactly when
`|diff| < 1`. -/
theorem C2_balanced_threshold (L : List Row) (h : |diffOf L| = 1) :
    settleDirection L ≠ Direction.BALANCED ∧
    ∀ M : List Row, (settleDirection M = Direction.BALANCED ↔ |diffOf M| < 1) := by
  constructor
  · unfold settleDirection
    rw [h]
    norm_num
    split <;> simp
  · intro M
    unfold settleDirection
    by_cases hM : |diffOf M| < 1
    · simp [hM]
    · rw [if_neg hM]
      constructor
      · intro hEq
        exact absurd hEq (by split <;> simp)
      · intro hlt
        exact absurd hlt hM

/-- Witness for `C2_balanced_threshold` at the concrete one-unit ledger. -/
theorem C2_balanced_threshold_witness :
    settleDirection oneUnitLedger ≠ Direction.BALANCED ∧
    ∀ M : List Row, (settleDirection M = Direction.BALANCED ↔ |diffOf M| < 1) :=
  C2_balanced_threshold oneUnitLedger (by rw [diff_oneUnitLedger]; exact abs_one)

/-- C2 counterexample: on `oneUnitLedger` the difference is exactly 1 and
the settlement is reported as a transfer, not BALANCED, refuting the claim
that `|diff| == 1` yields BALANCED. -/
theorem C2_counterexample :
    diffOf oneUnitLedger = 1 ∧ settleDirection oneUnitLedger ≠ Direction.BALANCED := by
  refine ⟨diff_oneUnitLedger, ?_⟩
  unfold settleDirection
  rw [diff_oneUnitLedger]
  norm_num
  decide

/-- The worked scenario of the spec: 1000 JPY paid by Christen and
500 TWD paid by Bill, both split between the two. -/
def scenarioLedger : List Row :=
  [⟨some 1000, "JPY", "Christen", some "Christen, Bill"⟩,
   ⟨some 500, "TWD", "Bill", some "Christen, Bill"⟩]

/-- C4: on the scenario ledger with rate 0.2075 the computation yields
paid[A]=207.5, paid[B]=500, fairShare[A]=fairShare[B]=353.75,
balance[A]=-146.25, balance[B]=146.25, total=707.5, and the settlement is
"A owes B" with amount 146.25. -/
theorem C4_scenario :
    ((finalState scenarioLedger).stats userA).paid = 207.5 ∧
    ((finalState scenarioLedger).stats userB).paid = 500 ∧
    ((finalState scenarioLedger).stats userA).fair_share = 353.75 ∧
    ((finalState scenarioLedger).stats userB).fair_share = 353.75 ∧
    balanceOf scenarioLedger userA = -146.25 ∧
    balanceOf scenarioLedger userB = 146.25 ∧
    (finalState scenarioLedger).total = 707.5 ∧
    settleDirection scenarioLedger = Direction.A_OWES_B ∧
    settleAmount scenarioLedger = 146.25 := by
  have hp : parseInvolved "Christen, Bill" = ["Christen", "Bill"] := by decide
  have hA : ((finalState scenarioLedger).stats "Christen") = ⟨207.5, 353.75⟩ := by
    simp [scenarioLedger, finalState, processRow, initSettle, updatePaid, updateFair,
      USERS, EXCHANGE_RATE, hp]
    norm_num
  have hB : ((finalState scenarioLedger).stats "Bill") = ⟨500, 353.75⟩ := by
    simp [scenarioLedger, finalState, processRow, initSettle, updatePaid, updateFair,
      USERS, EXCHANGE_RATE, hp]
    norm_num
  have hdiff : diffOf scenarioLedger = -146.25 := by
    rw [diffOf, balanceOf]
    show ((finalState scenarioLedger).stats "Christen").paid
        - ((finalState scenarioLedger).stats "Christen").fair_share = -146.25
    rw [hA]
    norm_num
  have habs : |diffOf scenarioLedger| = 146.25 := by
    rw [hdiff, abs_neg, abs_of_nonneg (by norm_num : (0 : ℚ) ≤ 146.25)]
  refine ⟨?_, ?_, ?_, ?_, ?_, ?_, ?_, ?_, ?_⟩
  · show ((finalState scenarioLedger).stats "Christen").paid = 207.5
    rw [hA]
  · show ((finalState scenarioLedger).stats "Bill").paid = 500
    rw [hB]
  · show ((finalState scenarioLedger).stats "Christen").fair_share = 353.75
    rw [hA]
  · show ((finalState scenarioLedger).stats "Bill").fair_share = 353.75
    rw [hB]
  · rw [balanceOf]
    show ((finalState scenarioLedger).stats "Christen").paid
        - ((finalState scenarioLedger).stats "Christen").fair_share = -146.25
    rw [hA]
    norm_num
  · rw [balanceOf]
    show ((finalState scenarioLedger).stats "Bill").paid
        - ((finalState scenarioLedger).stats "Bill").fair_share = 146.25
    rw [hB]
    norm_num
  · simp [scenarioLedger, finalState, processRow, initSettle, updatePaid, updateFair,
      USERS, EXCHANGE_RATE, hp]
    norm_num
  · rw [settleDirection, habs, hdiff]
    norm_num
  · rw [settleAmount, habs]
    norm_num

/-- C8: splitting any Involved string on commas yields at least one name,
so the divisor `len(inv_list)` in the share computation is never zero and
the share division is always defined — also for an empty Involved cell,
which yields the single name `""`. -/
theorem C8_split_never_empty :
    (∀ s : String,
      1 ≤ (parseInvolved s).length ∧ ((parseInvolved s).length : ℚ) ≠ 0) ∧
    parseInvolved "" = [""] := by
  refine ⟨fun s => ⟨parseInvolved_length_pos s, ?_⟩, by decide⟩
  have h := parseInvolved_length_pos s
  exact_mod_cast Nat.one_le_iff_ne_zero.mp h

lemma updatePaid_fair (st : SettleState) (u : String) (a : ℚ) (v : String) :
    ((updatePaid st u a).stats v).fair_share = (st.stats v).fair_share := by
  unfold updatePaid
  dsimp only
  by_cases h : v = u
  · subst h
    simp
  · simp [h]

lemma updatePaid_paid_self (st : SettleState) (u : String) (a : ℚ) :
    ((updatePaid st u a).stats u).paid = (st.stats u).paid + a := by
  unfold updatePaid
  simp

lemma processRow_some_none (st : SettleState) (amt : ℚ) (currency payer : String) :
    processRow st ⟨some amt, currency, payer, none⟩ =
      (let amt_twd := if currency = "JPY" then amt * EXCHANGE_RATE else amt
       let st1 : SettleState := { st with total := st.total + amt_twd }
       if payer ∈ USERS then updatePaid st1 payer amt_twd else st1) :=
  rfl

lemma finalState_filter (L : List Row) :
    finalState L = (L.filter (fun r => r.amount.isSome)).foldl processRow initSettle := by
  unfold finalState
  generalize initSettle = st
  induction L generalizing st with
  | nil => rfl
  | cons r L ih =>
    cases ha : r.amount with
    | none =>
      have hf : r.amount.isSome = false := by rw [ha]; rfl
      rw [List.foldl_cons, processRow_none st r ha, List.filter_cons, hf]
      simpa using ih st
    | some a =>
      have hf : r.amount.isSome = true := by rw [ha]; rfl
      rw [List.foldl_cons, List.filter_cons, hf]
      simpa using ih (processRow st r)

/-- C3 (amended): a row whose Amount fails to parse is skipped whole — it
changes nothing, and the whole accumulation equals the one over only the
amount-parseable rows — but a row whose Amount parses and whose Involved
cell is missing is NOT excluded from every accumulation: the loop has
already added its converted amount to the total (and credited its payer)
before the failure, and only the fair-share accumulation is skipped. No
error escapes in either case (the loop is a total function). -/
theorem C3_malformed_rows (L : List Row) (st : SettleState) (rowA rowI : Row) (amt : ℚ)
    (hA : rowA.amount = none)
    (hI : rowI.amount = some amt) (hI2 : rowI.involved = none) :
    processRow st rowA = st ∧
    finalState L = (L.filter (fun r => r.amount.isSome)).foldl processRow initSettle ∧
    (∀ u : String,
      ((processRow st rowI).stats u).fair_share = (st.stats u).fair_share) ∧
    (processRow st rowI).total
      = st.total + (if rowI.currency = "JPY" then amt * EXCHANGE_RATE else amt) ∧
    (rowI.payer ∈ USERS →
      ((processRow st rowI).stats rowI.payer).paid
        = (st.stats rowI.payer).paid
          + (if rowI.currency = "JPY" then amt * EXCHANGE_RATE else amt)) := by
  obtain ⟨amountI, currencyI, payerI, involvedI⟩ := rowI
  cases hI
  cases hI2
  refine ⟨processRow_none st rowA hA, finalState_filter L, ?_, ?_, ?_⟩
  · intro u
    rw [processRow_some_none]
    dsimp only
    split
    · rw [updatePaid_fair]
    · rfl
  · rw [processRow_some_none]
    dsimp only
    split <;> rfl
  · intro hp
    rw [processRow_some_none]
    dsimp only
    rw [if_pos hp, updatePaid_paid_self]

/-- Witness for `C3_malformed_rows` at concrete rows and a concrete state. -/
theorem C3_malformed_rows_witness :
    processRow initSettle ⟨none, "TWD", "Christen", some "Christen"⟩ = initSettle ∧
    finalState [] = (List.filter (fun r => r.amount.isSome) []).foldl processRow initSettle ∧
    (∀ u : String,
      ((processRow initSettle ⟨some 100, "TWD", "Christen", none⟩).stats u).fair_share
        = (initSettle.stats u).fair_share) ∧
    (processRow initSettle ⟨some 100, "TWD", "Christen", none⟩).total
      = initSettle.total + (if ("TWD" : String) = "JPY" then 100 * EXCHANGE_RATE else 100) ∧
    (("Christen" : String) ∈ USERS →
      ((processRow initSettle ⟨some 100, "TWD", "Christen", none⟩).stats "Christen").paid
        = (initSettle.stats "Christen").paid
          + (if ("TWD" : String) = "JPY" then 100 * EXCHANGE_RATE else 100)) :=
  C3_malformed_rows [] initSettle ⟨none, "TWD", "Christen", some "Christen"⟩
    ⟨some 100, "TWD", "Christen", none⟩ 100 rfl rfl rfl

/-- C3 counterexample: the row (Amount 100 TWD, Payer Christen, missing
Involved) is malformed, yet the settlement totals over the one-row ledger
are 100 for `total` and 100 for Christen's `paid` — not the totals over
the (empty) list of fully parseable rows, which are 0. The claim that such
a row contributes nothing to any accumulation is false. -/
theorem C3_counterexample :
    (finalState [⟨some 100, "TWD", "Christen", none⟩]).total = 100 ∧
    ((finalState [⟨some 100, "TWD", "Christen", none⟩]).stats "Christen").paid = 100 ∧
    (finalState []).total = 0 ∧
    ((finalState []).stats "Christen").paid = 0 := by
  refine ⟨?_, ?_, rfl, rfl⟩ <;>
    simp [finalState, processRow, initSettle, updatePaid, USERS]

/-- C5: a submission that passes validation performs a force-fresh read
(`ttl=0`, ignoring whatever snapshot the cache holds), appends the new
entry at the end, overwrites the store with the whole sequence, and — on a
successful write — clears the cache; a force-fresh read right after thus
returns the prior ledger with the new entry appended as last element. -/
theorem C5_append_round_trip (s : AppState) (date item : String) (amount : ℚ)
    (currency payer : String) (involved : List String)
    (hitem : item ≠ "") (hamt : 0 < amount) (hinv : involved ≠ []) :
    (submitExpense s date item amount currency payer involved true).2
      = SubmitOutcome.success ∧
    readAllFresh (submitExpense s date item amount currency payer involved true).1
      = readAllFresh s ++ [⟨date, item, amount, currency, payer, joinCommaSpace involved⟩] ∧
    (submitExpense s date item amount currency payer involved true).1.cache = none := by
  have hv : ¬(item = "" ∨ amount ≤ 0 ∨ involved = []) := by
    push_neg
    exact ⟨hitem, hamt, hinv⟩
  unfold submitExpense
  rw [if_neg hv]
  exact ⟨rfl, rfl, rfl⟩

/-- Witness for `C5_append_round_trip` on a concrete state with a stale
cached snapshot. -/
theorem C5_append_round_trip_witness :
    (submitExpense ⟨[], some []⟩ "2026-01-01" "一蘭拉麵" 1 "TWD" "Christen"
        ["Christen"] true).2 = SubmitOutcome.success ∧
    readAllFresh (submitExpense ⟨[], some []⟩ "2026-01-01" "一蘭拉麵" 1 "TWD" "Christen"
        ["Christen"] true).1
      = readAllFresh ⟨[], some []⟩
        ++ [⟨"2026-01-01", "一蘭拉麵", 1, "TWD", "Christen", joinCommaSpace ["Christen"]⟩] ∧
    (submitExpense ⟨[], some []⟩ "2026-01-01" "一蘭拉麵" 1 "TWD" "Christen"
        ["Christen"] true).1.cache = none :=
  C5_append_round_trip ⟨[], some []⟩ "2026-01-01" "一蘭拉麵" 1 "TWD" "Christen"
    ["Christen"] (by decide) one_pos (by decide)

/-- C6 (amended): submission fails exactly when the item label is empty,
the amount is ≤ 0, or the involved list is empty; on a violation the state
is unchanged and the report is one fixed message naming all three required
fields — it does not single out the specific violated field — and when no
violation holds the entry is written to the store. -/
theorem C6_validation (s : AppState) (date item : String) (amount : ℚ)
    (currency payer : String) (involved : List String) (ws : Bool) :
    ((∃ msg, (submitExpense s date item amount currency payer involved ws).2
        = SubmitOutcome.validationError msg)
      ↔ (item = "" ∨ amount ≤ 0 ∨ involved = [])) ∧
    ((item = "" ∨ amount ≤ 0 ∨ involved = []) →
      submitExpense s date item amount currency payer involved ws
        = (s, SubmitOutcome.validationError validationMsg)) ∧
    (¬(item = "" ∨ amount ≤ 0 ∨ involved = []) →
      (submitExpense s date item amount currency payer involved true).1.remote
        = s.remote ++ [⟨date, item, amount, currency, payer, joinCommaSpace involved⟩]) := by
  by_cases hv : item = "" ∨ amount ≤ 0 ∨ involved = []
  · refine ⟨⟨fun _ => hv, fun _ => ⟨validationMsg, ?_⟩⟩, fun _ => ?_, fun hn => absurd hv hn⟩
    · unfold submitExpense
      rw [if_pos hv]
    · unfold submitExpense
      rw [if_pos hv]
  · refine ⟨⟨?_, fun h => absurd h hv⟩, fun h => absurd h hv, fun _ => ?_⟩
    · rintro ⟨msg, hmsg⟩
      unfold submitExpense at hmsg
      rw [if_neg hv] at hmsg
      cases ws <;> simp at hmsg
    · unfold submitExpense
      rw [if_neg hv]
      rfl

/-- Witness for `C6_validation`: an empty-item submission is rejected with
the fixed message and leaves the state unchanged. -/
theorem C6_validation_witness :
    submitExpense ⟨[], none⟩ "2026-01-01" "" 5 "TWD" "Christen" ["Bill"] true
      = (⟨[], none⟩, SubmitOutcome.validationError validationMsg) :=
  (C6_validation ⟨[], none⟩ "2026-01-01" "" 5 "TWD" "Christen" ["Bill"] true).2.1
    (Or.inl rfl)

/-- C6 counterexample: an empty item and a non-positive amount are
different violated fields, yet both submissions produce the identical
fixed error report, so the report does not enumerate the specific violated
field. -/
theorem C6_counterexample :
    (submitExpense ⟨[], none⟩ "2026-01-01" "" 5 "TWD" "Christen" ["Christen"] true).2
      = SubmitOutcome.validationError validationMsg ∧
    (submitExpense ⟨[], none⟩ "2026-01-01" "拉麵" 0 "TWD" "Christen" ["Christen"] true).2
      = SubmitOutcome.validationError validationMsg ∧
    ("" : String) = "" ∧ ¬(("拉麵" : String) = "") ∧ ¬((5 : ℚ) ≤ 0) ∧ (0 : ℚ) ≤ 0 := by
  refine ⟨?_, ?_, rfl, by decide, by norm_num, le_refl 0⟩
  · unfold submitExpense
    rw [if_pos (Or.inl rfl)]
  · unfold submitExpense
    rw [if_pos (Or.inr (Or.inl (le_refl 0)))]

/-- C7: a manual refresh is accepted exactly when at least 30 seconds have
passed since the last accepted refresh, a rejection reports
`int(30 - elapsed)` remaining seconds, and two triggers 5 seconds apart
(the first accepted) leave the second rejected with a reported wait of 25
seconds. -/
theorem C7_refresh_cooldown (st : SyncState) (t : ℚ) (h : 30 ≤ t - st.lastSyncTime) :
    (∀ s : SyncState, ∀ now : ℚ,
      ((refreshClick s now).2 = RefreshOutcome.accepted ↔ ¬(now - s.lastSyncTime < 30)) ∧
      (now - s.lastSyncTime < 30 →
        (refreshClick s now).2 = RefreshOutcome.rejected ⌊30 - (now - s.lastSyncTime)⌋)) ∧
    (refreshClick st t).2 = RefreshOutcome.accepted ∧
    (refreshClick (refreshClick st t).1 (t + 5)).2 = RefreshOutcome.rejected 25 := by
  have hnot : ¬(t - st.lastSyncTime < 30) := not_lt.mpr h
  refine ⟨fun s now => ⟨?_, fun hlt => ?_⟩, ?_, ?_⟩
  · unfold refreshClick
    by_cases hlt : now - s.lastSyncTime < 30
    · rw [if_pos hlt]
      simp [hlt]
    · rw [if_neg hlt]
      simp [hlt]
  · unfold refreshClick
    rw [if_pos hlt]
  · unfold refreshClick
    rw [if_neg hnot]
  · unfold refreshClick
    rw [if_neg hnot]
    dsimp only
    have h5 : t + 5 - t < 30 := by norm_num
    rw [if_pos h5]
    have h25 : (30 : ℚ) - (t + 5 - t) = ((25 : ℤ) : ℚ) := by push_cast; ring
    rw [h25, Int.floor_intCast]

/-- Witness for `C7_refresh_cooldown` from the initial state at time 30. -/
theorem C7_refresh_cooldown_witness :
    (refreshClick ⟨0, true⟩ 30).2 = RefreshOutcome.accepted ∧
    (refreshClick (refreshClick ⟨0, true⟩ 30).1 (30 + 5)).2 = RefreshOutcome.rejected 25 :=
  (C7_refresh_cooldown ⟨0, true⟩ 30 (by simp)).2

/-- C9: when the overwrite of the remote store fails, the handler raises
before the cache-clear line: the whole state — in particular the cached
snapshot — is untouched, and a cached read still returns the pre-write
snapshot. -/
theorem C9_write_failure_preserves_cache (s : AppState) (date item : String) (amount : ℚ)
    (currency payer : String) (involved : List String)
    (hitem : item ≠ "") (hamt : 0 < amount) (hinv : involved ≠ []) :
    (submitExpense s date item amount currency payer involved false).1 = s ∧
    (submitExpense s date item amount currency payer involved false).1.cache = s.cache ∧
    readCached (submitExpense s date item amount currency payer involved false).1
      = readCached s := by
  have hv : ¬(item = "" ∨ amount ≤ 0 ∨ involved = []) := by
    push_neg
    exact ⟨hitem, hamt, hinv⟩
  unfold submitExpense
  rw [if_neg hv]
  exact ⟨rfl, rfl, rfl⟩

/-- Witness for `C9_write_failure_preserves_cache`: a failed write leaves a
concrete cached snapshot in place. -/
theorem C9_write_failure_preserves_cache_witness :
    (submitExpense ⟨[], some []⟩ "2026-01-01" "壽司" 2 "TWD" "Bill"
        ["Bill"] false).1 = ⟨[], some []⟩ ∧
    (submitExpense ⟨[], some []⟩ "2026-01-01" "壽司" 2 "TWD" "Bill"
        ["Bill"] false).1.cache = (⟨[], some []⟩ : AppState).cache ∧
    readCached (submitExpense ⟨[], some []⟩ "2026-01-01" "壽司" 2 "TWD" "Bill"
        ["Bill"] false).1 = readCached ⟨[], some []⟩ :=
  C9_write_failure_preserves_cache ⟨[], some []⟩ "2026-01-01" "壽司" 2 "TWD" "Bill"
    ["Bill"] (by decide) two_pos (by decide)

/-- C10: a rejected refresh changes nothing — the last-refresh timestamp
(and the cached snapshot) stay as they were, so the deadline for the next
accepted refresh never moves — while an accepted refresh sets the
timestamp to the current time. -/
theorem C10_rejected_refresh_frame (st : SyncState) (now : ℚ) :
    (now - st.lastSyncTime < 30 → (refreshClick st now).1 = st) ∧
    (¬(now - st.lastSyncTime < 30) →
      (refreshClick st now).1 = ⟨now, false⟩) := by
  unfold refreshClick
  constructor
  · intro h
    rw [if_pos h]
  · intro h
    rw [if_neg h]

/-- Witness for `C10_rejected_refresh_frame`: a refresh 5 seconds after an
accepted one at time 10 is rejected and leaves the state untouched. -/
theorem C10_rejected_refresh_frame_witness :
    (refreshClick ⟨10, false⟩ 15).1 = ⟨10, false⟩ :=
  (C10_rejected_refresh_frame ⟨10, false⟩ 15).1 (by norm_num)

/-- Witness for `C8_split_never_empty` at a concrete Involved string. -/
theorem C8_split_never_empty_witness :
    1 ≤ (parseInvolved "Christen, Bill").length ∧
    ((parseInvolved "Christen, Bill").length : ℚ) ≠ 0 :=
  C8_split_never_empty.1 "Christen, Bill"
